import Mathlib

/-!
Verification development for the parameter-shift gradient notebook
(`3-quantum-gradients.ipynb`).

The notebook's engineerable core is:

* `parameter_shift_term(qnode, params, x, i, j)` — copies `params`, shifts
  entry `(i, j)` up by `π/2`, evaluates the oracle (`forward`), then shifts
  the same working copy down by `π` (so the entry sits at the original value
  minus `π/2`), evaluates again (`backward`), and returns
  `0.5 * (forward - backward)`.
* `parameter_shift(qnode, params, x)` — allocates `gradients =
  np.zeros_like(params)` and fills each entry `(i, j)` for
  `i < len(gradients)`, `j < len(gradients[0])` with
  `parameter_shift_term(qnode, w, x, i, j)`, where `w` is the module-level
  tensor `[[-2.1, 1.2], [-1.4, -3.9], [0.5, 0.2]]` — note that the body
  reads the global `w`, not the `params` argument.
* `num_evals(n_params, n_steps) = 2*n_params*n_steps`.

The shallow embedding below models tensors as nested lists of scalars, the
NumPy in-place updates `shifted[i, j] += …` on a fresh `.copy()` as a pure
functional update of the copy, Python integers as `ℤ`, and a possibly
failing oracle as a function into `Except`.  To keep every definition
executable the scalar type is an arbitrary field `α` and the constant
`np.pi` is threaded through as the explicit first argument `pi`; every
theorem instantiates `α` with `ℝ` and `pi` with the real number `π`.
-/

open Real

/-- A 1-dimensional data vector of scalars. -/
abbrev Vec (α : Type) := List α

/-- A 2-dimensional parameter/gradient tensor as an ordered list of rows. -/
abbrev Tensor (α : Type) := List (List α)

variable {α : Type} [Field α]

/-- Functional update of a list at index `n` (out-of-range is a no-op),
modelling a NumPy single-index assignment on a private copy. -/
def modifyIdx : List β → ℕ → (β → β) → List β
  | [], _, _ => []
  | a :: as, 0, f => f a :: as
  | a :: as, n + 1, f => a :: modifyIdx as n f

/-- Functional update of tensor entry `(i, j)`, modelling the NumPy
assignment `t[i, j] = f (t[i, j])` performed on a private copy. -/
def modify2 (t : Tensor α) (i j : ℕ) (f : α → α) : Tensor α :=
  modifyIdx t i (fun row => modifyIdx row j f)

/-- Read of tensor entry `(i, j)` (0 as the default outside the bounds). -/
def getEntry (t : Tensor α) (i j : ℕ) : α :=
  (t.getD i []).getD j 0

/-- The shape of a tensor: the list of its row lengths. -/
def shape (t : Tensor α) : List ℕ :=
  t.map List.length

/-- `np.zeros_like(params)`: a tensor of the same shape with every entry 0. -/
def zeros_like (t : Tensor α) : Tensor α :=
  t.map (fun row => row.map (fun _ => (0 : α)))

/-- The working copy after `shifted = params.copy(); shifted[i, j] += np.pi/2`
in `parameter_shift_term`. -/
def shifted_up (pi : α) (params : Tensor α) (i j : ℕ) : Tensor α :=
  modify2 params i j (fun v => v + pi / 2)

/-- The same working copy after the subsequent `shifted[i, j] -= np.pi`:
entry `(i, j)` now sits at the original value minus `π/2`. -/
def shifted_down (pi : α) (params : Tensor α) (i j : ℕ) : Tensor α :=
  modify2 (shifted_up pi params i j) i j (fun v => v - pi)

/-- `parameter_shift_term(qnode, params, x, i, j)` from the notebook:
forward and backward oracle evaluations on the shifted working copies and
the estimate `0.5 * (forward - backward)`. -/
def parameter_shift_term (pi : α) (qnode : Vec α → Tensor α → α)
    (params : Tensor α) (x : Vec α) (i j : ℕ) : α :=
  0.5 * (qnode x (shifted_up pi params i j) - qnode x (shifted_down pi params i j))

/-- The module-level tensor `w` of the notebook:
`w = np.array([[-2.1, 1.2], [-1.4, -3.9], [0.5, 0.2]])`. -/
def w : Tensor α :=
  [[-2.1, 1.2], [-1.4, -3.9], [0.5, 0.2]]

/-- The index pairs visited by the nested loops of `parameter_shift`, in
lexicographic order: `i` ranges over `len(gradients)` and `j` over
`len(gradients[0])`, where `gradients = np.zeros_like(params)` has the row
count and first-row length of `params`. -/
def pairsFor (params : Tensor α) : List (ℕ × ℕ) :=
  (List.range params.length).flatMap
    (fun i => (List.range (params.headD []).length).map (fun j => (i, j)))

/-- `parameter_shift(qnode, params, x)` from the notebook: starts from
`np.zeros_like(params)` and assigns
`gradients[i, j] = parameter_shift_term(qnode, w, x, i, j)` for every index
pair of the nested loops (the body reads the module-level `w`, not the
`params` argument). -/
def parameter_shift (pi : α) (qnode : Vec α → Tensor α → α)
    (params : Tensor α) (x : Vec α) : Tensor α :=
  (pairsFor params).foldl
    (fun g p => modify2 g p.1 p.2 (fun _ => parameter_shift_term pi qnode w x p.1 p.2))
    (zeros_like params)

/-- The two tensors `parameter_shift_term(qnode, w, x, i, j)` passes to the
oracle, in evaluation order. -/
def termCalls (pi : α) (i j : ℕ) : List (Tensor α) :=
  [shifted_up pi w i j, shifted_down pi w i j]

/-- The full sequence of oracle arguments produced by one invocation of
`parameter_shift` on `params` (the sequence is determined by the loop
bounds alone: the oracle's results never influence which calls are made). -/
def parameter_shift_calls (pi : α) (params : Tensor α) : List (Tensor α) :=
  (pairsFor params).flatMap (fun p => termCalls pi p.1 p.2)

/-- `num_evals(n_params, n_steps)` from the notebook, on Python integers:
`return 2*n_params*n_steps`, with no input validation. -/
def num_evals (n_params n_steps : ℤ) : ℤ :=
  2 * n_params * n_steps

/-- `parameter_shift_term` with a fallible oracle: each oracle evaluation
may fail, and a failure propagates out of the term unmodified
(Python exception semantics rendered in the `Except` monad). -/
def parameter_shift_term_exc (pi : α) (qnode : Vec α → Tensor α → Except ε α)
    (params : Tensor α) (x : Vec α) (i j : ℕ) : Except ε α := do
  let forward ← qnode x (shifted_up pi params i j)
  let backward ← qnode x (shifted_down pi params i j)
  pure (0.5 * (forward - backward))

/-- The loop of `parameter_shift` with a fallible oracle, instrumented with
the list of oracle arguments actually evaluated: runs the index pairs in
order, assigning each successful term into the gradient tensor; the first
oracle failure stops the loop at once, discards the partial tensor and
returns the oracle's error unmodified, together with the calls made up to
and including the failing one. -/
def shift_loop (pi : α) (qnode : Vec α → Tensor α → Except ε α) (x : Vec α) :
    List (ℕ × ℕ) → Tensor α → Except ε (Tensor α) × List (Tensor α)
  | [], g => (Except.ok g, [])
  | (i, j) :: rest, g =>
    match qnode x (shifted_up pi w i j) with
    | Except.error e => (Except.error e, [shifted_up pi w i j])
    | Except.ok forward =>
      match qnode x (shifted_down pi w i j) with
      | Except.error e => (Except.error e, [shifted_up pi w i j, shifted_down pi w i j])
      | Except.ok backward =>
        let res := shift_loop pi qnode x rest
          (modify2 g i j (fun _ => 0.5 * (forward - backward)))
        (res.1, shifted_up pi w i j :: shifted_down pi w i j :: res.2)

/-- `parameter_shift` with a fallible oracle, instrumented with the oracle
arguments actually evaluated. -/
def parameter_shift_exc (pi : α) (qnode : Vec α → Tensor α → Except ε α)
    (params : Tensor α) (x : Vec α) : Except ε (Tensor α) × List (Tensor α) :=
  shift_loop pi qnode x (pairsFor params) (zeros_like params)

/-- The error classes the Python runtime raises at the NumPy boundary of
`parameter_shift`; the source defines no error class of its own — in
particular no ShapeError.  `valueError` is numpy's refusal (numpy ≥ 1.24)
to build a non-rectangular array from a ragged nested sequence;
`typeError` is the older-numpy failure of the same call site, where the
ragged input becomes a 1-D object array, `np.zeros_like` fills it with the
scalar `0`, and `len(gradients[0])` raises `TypeError: len() of unsized
object`.  Both occur before any oracle evaluation. -/
inductive NpError
  | valueError
  | typeError

/-- `parameter_shift` as executed on NumPy array data, together with the
oracle-call trace: a rectangular `params` runs the nested loops exactly as
`parameter_shift` does with its `2*L*W` oracle calls, while a
non-rectangular `params` never reaches the oracle — the array library
rejects it (ValueError under current numpy at `np.array`, TypeError under
older numpy at `len(gradients[0])`; rendered here as the modern
`valueError`) and the call trace is empty. -/
def parameter_shift_np (pi : α) (qnode : Vec α → Tensor α → α)
    (params : Tensor α) (x : Vec α) : Except NpError (Tensor α) × List (Tensor α) :=
  if ∀ row ∈ params, row.length = (params.headD []).length then
    (Except.ok (parameter_shift pi qnode params x), parameter_shift_calls pi params)
  else
    (Except.error NpError.valueError, [])

/-- C4: for all non-negative integers, `num_evals` returns exactly
`2 * n_params * n_steps`; in particular it is 0 when either argument is 0,
and `num_evals 13 13 = 338`. -/
theorem num_evals_spec (n s : ℤ) (hn : 0 ≤ n) (hs : 0 ≤ s) :
    num_evals n s = 2 * n * s ∧ num_evals 0 s = 0 ∧ num_evals n 0 = 0 ∧
      num_evals 13 13 = 338 := by
  refine ⟨rfl, by simp [num_evals], by simp [num_evals], by simp [num_evals]⟩

/-- Witness for C4 at the concrete input `(13, 13)`. -/
theorem num_evals_spec_witness :
    num_evals 13 13 = 2 * 13 * 13 ∧ num_evals 0 13 = 0 ∧
      num_evals 13 0 = 0 ∧ num_evals 13 13 = 338 :=
  num_evals_spec 13 13 (by norm_num) (by norm_num)

/-- C5 counterexample: on the negative input `n_steps = -1` the code does
not fail; it silently returns the negative count `-2`. -/
theorem num_evals_no_validation :
    num_evals 1 (-1) = -2 ∧ num_evals 1 (-1) < 0 := by
  constructor <;> simp [num_evals]

/-- C5 amended: `num_evals` performs no input validation and has no failure
mode at all: on every integer input, negative ones included, it totally
returns `2 * n_params * n_steps`. -/
theorem num_evals_total (n s : ℤ) : num_evals n s = 2 * n * s :=
  rfl

/-! ### Lemmas about single-entry updates -/

theorem modifyIdx_of_le (l : List β) (n : ℕ) (f : β → β)
    (h : l.length ≤ n) : modifyIdx l n f = l := by
  induction l generalizing n with
  | nil => rfl
  | cons a as ih =>
    cases n with
    | zero => simp at h
    | succ m => simp only [modifyIdx]; rw [ih]; simpa using h

theorem getD_modifyIdx_ne (l : List β) (n m : ℕ) (f : β → β) (d : β)
    (h : m ≠ n) : (modifyIdx l n f).getD m d = l.getD m d := by
  induction l generalizing n m with
  | nil => rfl
  | cons a as ih =>
    cases n with
    | zero =>
      cases m with
      | zero => exact absurd rfl h
      | succ k => rfl
    | succ p =>
      cases m with
      | zero => rfl
      | succ k => simpa [modifyIdx] using ih p k (by omega)

theorem getD_modifyIdx_eq (l : List β) (n : ℕ) (f : β → β) (d : β)
    (h : n < l.length) : (modifyIdx l n f).getD n d = f (l.getD n d) := by
  induction l generalizing n with
  | nil => simp at h
  | cons a as ih =>
    cases n with
    | zero => rfl
    | succ m => simpa [modifyIdx] using ih m (by simpa using h)

theorem getEntry_modify2_ne (t : Tensor α) (i j k l : ℕ) (f : α → α)
    (h : ¬(k = i ∧ l = j)) : getEntry (modify2 t i j f) k l = getEntry t k l := by
  unfold getEntry modify2
  by_cases hk : k = i
  · subst hk
    have hl : l ≠ j := fun hlj => h ⟨rfl, hlj⟩
    by_cases hik : k < t.length
    · rw [getD_modifyIdx_eq t k _ [] hik, getD_modifyIdx_ne _ j l f 0 hl]
    · rw [modifyIdx_of_le t k _ (by omega)]
  · rw [getD_modifyIdx_ne t i k _ [] hk]

theorem getEntry_modify2_eq (t : Tensor α) (i j : ℕ) (f : α → α)
    (hi : i < t.length) (hj : j < (t.getD i []).length) :
    getEntry (modify2 t i j f) i j = f (getEntry t i j) := by
  unfold getEntry modify2
  rw [getD_modifyIdx_eq t i _ [] hi, getD_modifyIdx_eq _ j f 0 hj]

/-! ### C3: the shifted working copies are private and single-entry -/

/-- C3: while entry `(i, j)` is processed, both working copies passed to the
oracle (`shifted_up` after `+= π/2`, and `shifted_down` after the further
`-= π`) agree with the caller's tensor at every other entry, so the shifts
never touch any entry but `(i, j)`; the caller's tensor itself is a pure
value in this embedding (`params.copy()` is modelled as a functional
update), so it is unchanged after `parameter_shift` returns. -/
theorem shifted_copies_frame (params : Tensor ℝ) (i j k l : ℕ)
    (h : ¬(k = i ∧ l = j)) :
    getEntry (shifted_up π params i j) k l = getEntry params k l ∧
      getEntry (shifted_down π params i j) k l = getEntry params k l := by
  constructor
  · exact getEntry_modify2_ne params i j k l _ h
  · rw [shifted_down, getEntry_modify2_ne _ i j k l _ h]
    exact getEntry_modify2_ne params i j k l _ h

/-- Witness for C3: shifting entry `(0, 0)` of the notebook's tensor `w`
leaves entry `(0, 1)` of both working copies at its original value `1.2`. -/
theorem shifted_copies_frame_witness :
    getEntry (shifted_up π (w : Tensor ℝ) 0 0) 0 1 = getEntry (w : Tensor ℝ) 0 1 ∧
      getEntry (shifted_down π (w : Tensor ℝ) 0 0) 0 1 = getEntry (w : Tensor ℝ) 0 1 :=
  shifted_copies_frame w 0 0 0 1 (by simp)

/-! ### C7: the shift estimate is exact for the cosine oracle -/

theorem cos_term_eval (θ : ℝ) :
    parameter_shift_term π (fun _ p => Real.cos (getEntry p 0 0)) [[θ]] [] 0 0
      = -Real.sin θ := by
  have hup : getEntry (shifted_up π [[θ]] 0 0) 0 0 = θ + π / 2 := by
    simp [shifted_up, modify2, modifyIdx, getEntry]
  have hdown : getEntry (shifted_down π [[θ]] 0 0) 0 0 = θ + π / 2 - π := by
    simp [shifted_down, shifted_up, modify2, modifyIdx, getEntry]
  rw [parameter_shift_term, hup, hdown, Real.cos_add_pi_div_two]
  rw [show θ + π / 2 - π = θ - π / 2 by ring, Real.cos_sub_pi_div_two]
  ring

/-- C7: for the single-parameter oracle `f(θ) = cos θ`, the estimate
`0.5 * (f(θ + π/2) - f(θ - π/2))` computed by `parameter_shift_term` equals
the analytic derivative `-sin θ` at every real `θ`; in particular it is `0`
at `θ = 0` and `-1` at `θ = π/2`. -/
theorem shift_term_exact_for_cos (θ : ℝ) :
    parameter_shift_term π (fun _ p => Real.cos (getEntry p 0 0)) [[θ]] [] 0 0
        = -Real.sin θ ∧
      parameter_shift_term π (fun _ p => Real.cos (getEntry p 0 0)) [[0]] [] 0 0
        = 0 ∧
      parameter_shift_term π (fun _ p => Real.cos (getEntry p 0 0)) [[π / 2]] [] 0 0
        = -1 := by
  refine ⟨cos_term_eval θ, ?_, ?_⟩
  · rw [cos_term_eval 0]; simp
  · rw [cos_term_eval (π / 2)]; simp

/-! ### C1: the gradient entries are computed from the global `w`,
not from the `params` argument -/

/-- C1 (failing input): with the oracle `p ↦ (p[0,0])²`, data `[]` and the
caller's tensor `[[0]]`, the code returns `[[-2.1 * π]]` — the shift
estimate of the global `w`'s entry `w[0,0] = -2.1` — while the claim's
formula applied to the caller's `params` (as `parameter_shift_term` does
when given `params` itself) yields `0`, and `-2.1 * π ≠ 0`.  The body
`gradients[i, j] = parameter_shift_term(qnode, w, x, i, j)` reads the
module-level `w` instead of `params`. -/
theorem parameter_shift_reads_global_w :
    parameter_shift π (fun _ p => getEntry p 0 0 ^ 2) [[(0 : ℝ)]] []
        = [[-2.1 * π]] ∧
      parameter_shift_term π (fun _ p => getEntry p 0 0 ^ 2) [[(0 : ℝ)]] [] 0 0
        = 0 ∧
      (-2.1 : ℝ) * π ≠ 0 := by
  have hpairs : pairsFor ([[(0 : ℝ)]] : Tensor ℝ) = [(0, 0)] := rfl
  have hq1 : getEntry (shifted_up π (w : Tensor ℝ) 0 0) 0 0 = (-2.1 : ℝ) + π / 2 := by
    simp [shifted_up, modify2, modifyIdx, getEntry, w]
  have hq2 : getEntry (shifted_down π (w : Tensor ℝ) 0 0) 0 0 = (-2.1 : ℝ) + π / 2 - π := by
    simp [shifted_down, shifted_up, modify2, modifyIdx, getEntry, w]
  have hq3 : getEntry (shifted_up π ([[(0 : ℝ)]] : Tensor ℝ) 0 0) 0 0 = (0 : ℝ) + π / 2 := by
    simp [shifted_up, modify2, modifyIdx, getEntry]
  have hq4 : getEntry (shifted_down π ([[(0 : ℝ)]] : Tensor ℝ) 0 0) 0 0
      = (0 : ℝ) + π / 2 - π := by
    simp [shifted_down, shifted_up, modify2, modifyIdx, getEntry]
  refine ⟨?_, ?_, ?_⟩
  · rw [parameter_shift, hpairs]
    simp only [List.foldl_cons, List.foldl_nil, parameter_shift_term]
    rw [hq1, hq2]
    simp only [zeros_like, modify2, modifyIdx, List.map, List.cons.injEq, and_true]
    ring
  · rw [parameter_shift_term, hq3, hq4]
    ring
  · exact mul_ne_zero (by norm_num) Real.pi_ne_zero


/-! ### Shape and call-count lemmas -/

theorem headD_length (p : Tensor α) : (p.headD []).length = (shape p).headD 0 := by
  cases p <;> rfl

theorem zeros_like_of_shape_eq (p1 p2 : Tensor α) (h : shape p1 = shape p2) :
    zeros_like p1 = zeros_like p2 := by
  induction p1 generalizing p2 with
  | nil => cases p2 with
    | nil => rfl
    | cons r t => simp [shape] at h
  | cons r t ih =>
    cases p2 with
    | nil => simp [shape] at h
    | cons r2 t2 =>
      simp only [shape, List.map_cons, List.cons.injEq] at h
      simp only [zeros_like, List.map_cons, List.cons.injEq]
      refine ⟨?_, ih t2 h.2⟩
      rw [List.map_const', List.map_const', h.1]

/-- C9: the result of `parameter_shift` depends on its `params` argument
only through the shape: two same-shape parameter tensors give the same
gradient tensor, because every entry is computed from the module-level `w`. -/
theorem gradient_ignores_params_values (qnode : Vec ℝ → Tensor ℝ → ℝ) (x : Vec ℝ)
    (p1 p2 : Tensor ℝ) (h : shape p1 = shape p2) :
    parameter_shift π qnode p1 x = parameter_shift π qnode p2 x := by
  have hlen : p1.length = p2.length := by
    have h2 := congrArg List.length h
    simpa [shape] using h2
  have hhead : (p1.headD []).length = (p2.headD []).length := by
    rw [headD_length, headD_length, h]
  rw [parameter_shift, parameter_shift, pairsFor, pairsFor, hlen, hhead,
    zeros_like_of_shape_eq p1 p2 h]

/-- Witness for C9 at two different same-shape tensors. -/
theorem gradient_ignores_params_values_witness :
    parameter_shift π (fun _ p => getEntry p 0 0) [[(0 : ℝ), 0]] []
      = parameter_shift π (fun _ p => getEntry p 0 0) [[(1 : ℝ), 2]] [] :=
  gradient_ignores_params_values _ [] [[0, 0]] [[1, 2]] rfl

/-- C10: on an empty parameter tensor the code makes no oracle call and
returns the tensor itself. -/
theorem empty_params_no_calls (qnode : Vec ℝ → Tensor ℝ → ℝ) (x : Vec ℝ)
    (params : Tensor ℝ)
    (hrect : ∀ row ∈ params, row.length = (params.headD []).length)
    (hempty : params.headD [] = ([] : List ℝ)) :
    parameter_shift_calls π params = [] ∧
      parameter_shift π qnode params x = params := by
  have hpairs : pairsFor params = [] := by
    rw [pairsFor, hempty]
    simp
  constructor
  · rw [parameter_shift_calls, hpairs]; rfl
  · rw [parameter_shift, hpairs]
    simp only [List.foldl_nil]
    have hrows : ∀ row ∈ params, row = ([] : List ℝ) := by
      intro row hr
      have hlen2 := hrect row hr
      rw [hempty] at hlen2
      exact List.length_eq_zero.mp (by simpa using hlen2)
    rw [zeros_like]
    calc params.map (fun row => row.map fun _ => (0 : ℝ))
        = params.map id := List.map_congr_left (fun row hr => by rw [hrows row hr]; rfl)
      _ = params := List.map_id params


/-- Witness for C10: two empty rows give no oracle calls and an unchanged
empty result. -/
theorem empty_params_no_calls_witness :
    parameter_shift_calls π ([[], []] : Tensor ℝ) = [] ∧
      parameter_shift π (fun _ _ => (0 : ℝ)) ([[], []] : Tensor ℝ) [] = [[], []] := by
  have hrect : ∀ row ∈ ([[], []] : Tensor ℝ),
      row.length = (([[], []] : Tensor ℝ).headD []).length := by
    intro row hr
    simp only [List.mem_cons, List.not_mem_nil, or_false] at hr
    rcases hr with h | h <;> subst h <;> rfl
  exact empty_params_no_calls (fun _ _ => (0 : ℝ)) [] [[], []] hrect rfl


/-! ### C8: oracle failures abort the computation and propagate unmodified -/

theorem shift_loop_error_spec (pi : α) (qnode : Vec α → Tensor α → Except ε α)
    (x : Vec α) (pairs : List (ℕ × ℕ)) (g : Tensor α) (e : ε)
    (h : (shift_loop pi qnode x pairs g).1 = Except.error e) :
    ∃ pre c, (shift_loop pi qnode x pairs g).2 = pre ++ [c] ∧
      qnode x c = Except.error e ∧
      (∀ c2 ∈ pre, ∃ v, qnode x c2 = Except.ok v) ∧
      ∃ rest, (pre ++ [c]) ++ rest = pairs.flatMap (fun p => termCalls pi p.1 p.2) := by
  induction pairs generalizing g with
  | nil => simp [shift_loop] at h
  | cons p rest ih =>
    obtain ⟨i, j⟩ := p
    rcases hc1 : qnode x (shifted_up pi w i j) with e1 | f
    · simp only [shift_loop, hc1, Except.error.injEq] at h ⊢
      subst h
      refine ⟨[], shifted_up pi w i j, rfl, hc1, by simp, ?_⟩
      exact ⟨shifted_down pi w i j :: rest.flatMap (fun p => termCalls pi p.1 p.2),
        by simp [termCalls, List.flatMap_cons]⟩
    · rcases hc2 : qnode x (shifted_down pi w i j) with e2 | b
      · simp only [shift_loop, hc1, hc2, Except.error.injEq] at h ⊢
        subst h
        refine ⟨[shifted_up pi w i j], shifted_down pi w i j, rfl, hc2, ?_, ?_⟩
        · intro c2 hm
          simp only [List.mem_singleton] at hm
          exact ⟨f, hm ▸ hc1⟩
        · exact ⟨rest.flatMap (fun p => termCalls pi p.1 p.2),
            by simp [termCalls, List.flatMap_cons]⟩
      · simp only [shift_loop, hc1, hc2] at h ⊢
        obtain ⟨pre, c, hsplit, herr, hpre, rest2, hrest⟩ := ih _ h
        refine ⟨shifted_up pi w i j :: shifted_down pi w i j :: pre, c, ?_, herr, ?_, rest2, ?_⟩
        · simp [hsplit]
        · intro c2 hm
          simp only [List.mem_cons] at hm
          rcases hm with h1 | h1 | h1
          · exact ⟨f, h1 ▸ hc1⟩
          · exact ⟨b, h1 ▸ hc2⟩
          · exact hpre c2 h1
        · simp only [List.cons_append, List.flatMap_cons]
          rw [hrest]
          simp [termCalls]

/-- C8: if an oracle evaluation fails during `parameter_shift`, the failure
is surfaced to the caller unmodified and the computation aborts at once: the
trace of oracle calls actually made ends exactly at the failing call, every
earlier call succeeded, the trace is a prefix of the full `2*L*W` call
sequence (no retry, no further calls), and the result is the error — no
partial gradient tensor. -/
theorem oracle_failure_aborts (qnode : Vec ℝ → Tensor ℝ → Except ε ℝ)
    (params : Tensor ℝ) (x : Vec ℝ) (e : ε)
    (h : (parameter_shift_exc π qnode params x).1 = Except.error e) :
    ∃ pre c, (parameter_shift_exc π qnode params x).2 = pre ++ [c] ∧
      qnode x c = Except.error e ∧
      (∀ c2 ∈ pre, ∃ v, qnode x c2 = Except.ok v) ∧
      ∃ rest, (pre ++ [c]) ++ rest = parameter_shift_calls π params :=
  shift_loop_error_spec π qnode x (pairsFor params) (zeros_like params) e h

/-- Witness for C8: an oracle that always fails with error `5` makes the
gradient computation on `[[0]]` abort with error `5` after its very first
call. -/
theorem oracle_failure_aborts_witness :
    ∃ pre c,
      (parameter_shift_exc π (fun _ _ => (Except.error 5 : Except ℕ ℝ)) [[(0 : ℝ)]] []).2
          = pre ++ [c] ∧
        (fun (_ : Vec ℝ) (_ : Tensor ℝ) => (Except.error 5 : Except ℕ ℝ)) [] c
          = Except.error 5 ∧
        (∀ c2 ∈ pre, ∃ v,
          (fun (_ : Vec ℝ) (_ : Tensor ℝ) => (Except.error 5 : Except ℕ ℝ)) [] c2
            = Except.ok v) ∧
        ∃ rest, (pre ++ [c]) ++ rest = parameter_shift_calls π [[(0 : ℝ)]] :=
  oracle_failure_aborts (fun _ _ => Except.error 5) [[0]] [] 5 rfl

/-! ### C6: ragged input fails at the NumPy boundary, never with a ShapeError -/

/-- C6 counterexample: on the non-rectangular input `[[1], [2, 3]]` the code
does not fail with a ShapeError — no such class exists anywhere in the
source — and it performs no rectangularity validation of its own: the
failure it does exhibit is the array library's (ValueError in current
numpy, TypeError in older numpy), raised before a single oracle call is
made, so the oracle-call trace is empty. -/
theorem ragged_input_library_error :
    parameter_shift_np π (fun _ _ => (0 : ℝ)) [[1], [2, 3]] []
      = (Except.error NpError.valueError, []) := by
  have hrag : ¬ ∀ row ∈ ([[1], [2, 3]] : Tensor ℝ),
      row.length = (([[1], [2, 3]] : Tensor ℝ).headD []).length := by
    intro h
    have h2 := h [2, 3] (by simp)
    simp at h2
  rw [parameter_shift_np, if_neg hrag]

/-- C6 amended: `gradient_of` performs no rectangularity validation and
defines no ShapeError; on every non-rectangular parameter tensor the
failure is the array library's TypeError/ValueError, raised at the NumPy
boundary before any oracle evaluation, so the call fails with a library
error — not the spec's ShapeError — and the oracle-call trace is empty. -/
theorem non_rectangular_library_error (qnode : Vec ℝ → Tensor ℝ → ℝ)
    (x : Vec ℝ) (params : Tensor ℝ)
    (hrag : ¬ ∀ row ∈ params, row.length = (params.headD []).length) :
    parameter_shift_np π qnode params x = (Except.error NpError.valueError, []) := by
  rw [parameter_shift_np, if_neg hrag]

/-- Witness for C6's amended claim at the ragged input `[[1], [2, 3]]` with
a nonzero oracle. -/
theorem non_rectangular_library_error_witness :
    parameter_shift_np π (fun _ p => getEntry p 0 0) [[1], [2, 3]] []
      = (Except.error NpError.valueError, []) :=
  non_rectangular_library_error (fun _ p => getEntry p 0 0) [] [[1], [2, 3]]
    (fun h => by have h2 := h [2, 3] (by simp); simp at h2)
